import Mathlib

/-!
Verification of the note persistence and lifecycle module of the
CampusNotes dev server (`src/dev-server.js`, store part: `api/store.js`).

The store owns an in-memory list of note records (`notesStore`) and mirrors
it to a single JSON file on every mutation.  We embed the store shallowly:

* a `Note` is a record of the fields built by the upload handler;
* the backing file is modelled by `FileContent`: it is absent, holds a
  well-formed JSON array of notes (the meaning of `JSON.stringify(notesStore)`,
  with `parseFile` as the inverse `JSON.parse`), or is malformed;
* `fs.writeFileSync` may fail; the flag `writeOk` of the state says whether
  a write attempt succeeds (the `catch` in `saveNotes` swallows the error);
* `notesStore.sort(comparator)` sorts in place and returns the same array;
  the comparator `new Date(b.createdAt) - new Date(a.createdAt)` orders by
  descending `createdAt`, and JavaScript's sort is stable, so it is embedded
  as `List.mergeSort` with `byCreatedAtDesc`.

Timestamps (`createdAt`, epoch milliseconds) are `Nat`.
-/

namespace CampusNotes

/-- A note record, with the fields the upload handler builds
(`src/dev-server.js` lines 108–120). -/
structure Note where
  id : String
  title : String
  subject : String
  desc : String
  type : String
  fileName : String
  fileUrl : String
  publicId : String
  fileType : String
  fileSize : Nat
  createdAt : Nat
deriving DecidableEq, Repr

/-- The contents of the backing JSON file `notes-data.json`: the file is
absent, holds the JSON serialization of a list of notes, or is malformed. -/
inductive FileContent where
  | absent : FileContent
  | json : List Note → FileContent
  | malformed : FileContent
deriving DecidableEq, Repr

/-- `JSON.parse` on the file contents: a well-formed array parses to its
list of notes, malformed JSON fails, an absent file cannot be read. -/
def parseFile : FileContent → Option (List Note)
  | FileContent.json l => some l
  | _ => none

/-- State of the store module: the in-memory `notesStore` array, the backing
file, and whether a `fs.writeFileSync` attempt succeeds. -/
structure StoreState where
  notesStore : List Note
  file : FileContent
  writeOk : Bool
deriving DecidableEq, Repr

/-- `saveNotes` (lines 217–224): write `JSON.stringify(notesStore)` to the
file; an error from the write is caught and only logged, leaving the file
as it was. -/
def saveNotes (s : StoreState) : StoreState :=
  if s.writeOk then { s with file := FileContent.json s.notesStore }
  else s

/-- `loadNotes` (lines 200–215): if the file exists, read and parse it into
`notesStore`; a parse failure is caught and resets `notesStore` to `[]`
without touching the file.  If the file is absent, set `notesStore` to `[]`
and create the file via `saveNotes`. -/
def loadNotes (file : FileContent) (writeOk : Bool) : StoreState :=
  match file with
  | FileContent.json l => { notesStore := l, file := file, writeOk := writeOk }
  | FileContent.absent =>
      saveNotes { notesStore := [], file := FileContent.absent, writeOk := writeOk }
  | FileContent.malformed =>
      { notesStore := [], file := FileContent.malformed, writeOk := writeOk }

/-- The sort comparator of `getNotes` (line 231):
`new Date(b.createdAt) - new Date(a.createdAt)` puts `a` before `b`
exactly when `a.createdAt ≥ b.createdAt` (descending). -/
def byCreatedAtDesc (a b : Note) : Bool :=
  b.createdAt ≤ a.createdAt

/-- `getNotes` (lines 229–236): `notesStore.sort(...)` sorts the array in
place and returns it, so the returned list and the new `notesStore` are the
same sorted list. -/
def getNotes (s : StoreState) : List Note × StoreState :=
  let sorted := s.notesStore.mergeSort byCreatedAtDesc
  (sorted, { s with notesStore := sorted })

/-- `addNote` (lines 238–248): push the note onto `notesStore`, call
`saveNotes` (whose errors are swallowed internally), and return the note.
The `catch` branch returning `null` would only run if the push itself threw,
which it cannot; `addNote` always returns the note. -/
def addNote (note : Note) (s : StoreState) : Option Note × StoreState :=
  let s1 := { s with notesStore := s.notesStore ++ [note] }
  (some note, saveNotes s1)

/-- `deleteNote` (lines 250–264): `findIndex` of the first note whose `id`
matches; if `-1`, return `null` without mutating; otherwise read the note at
that index, `splice` it out, `saveNotes`, and return the removed note. -/
def deleteNote (id : String) (s : StoreState) : Option Note × StoreState :=
  match s.notesStore.findIdx? (fun note => note.id == id) with
  | none => (none, s)
  | some noteIndex =>
      (s.notesStore[noteIndex]?,
       saveNotes { s with notesStore := s.notesStore.eraseIdx noteIndex })

/-- `findNote` (lines 266–273): first note whose `id` matches, else
"not found" (`undefined`, modelled as `none`). -/
def findNote (id : String) (s : StoreState) : Option Note :=
  s.notesStore.find? (fun note => note.id == id)

/-- JavaScript `x || dflt` on an optional string: `undefined` and the empty
string are falsy. -/
def jsOr (x : Option String) (dflt : String) : String :=
  match x with
  | none => dflt
  | some s => if s = "" then dflt else s

/-- The note object built by the upload handler (lines 108–120):
`subject?.trim() || ''`, `desc?.trim() || ''`, `type || 'note'`. -/
def buildNote (id title : String) (subject desc type_ : Option String)
    (fileName fileUrl publicId fileType : String) (fileSize createdAt : Nat) :
    Note :=
  { id := id
    title := title.trim
    subject := jsOr (subject.map (fun s => s.trim)) ""
    desc := jsOr (desc.map (fun s => s.trim)) ""
    type := jsOr type_ "note"
    fileName := fileName
    fileUrl := fileUrl
    publicId := publicId
    fileType := fileType
    fileSize := fileSize
    createdAt := createdAt }

/-! ### Generic list lemmas about the first match of a predicate -/

/-- A list with some element satisfying `p` splits at its first such
element. -/
theorem exists_first_split {α : Type} (p : α → Bool) :
    ∀ l : List α, (∃ a ∈ l, p a = true) →
      ∃ l1 a l2, l = l1 ++ a :: l2 ∧ (∀ b ∈ l1, p b = false) ∧ p a = true := by
  intro l
  induction l with
  | nil => rintro ⟨a, ha, _⟩; cases ha
  | cons x xs ih =>
      intro h
      by_cases hx : p x = true
      · exact ⟨[], x, xs, rfl, ⟨by simp, hx⟩⟩
      · have hx' : p x = false := by simpa using hx
        obtain ⟨a, ha, hpa⟩ := h
        rcases List.mem_cons.mp ha with rfl | ha'
        · exact absurd hpa hx
        · obtain ⟨l1, a', l2, heq, hl1, hpa'⟩ := ih ⟨a, ha', hpa⟩
          refine ⟨x :: l1, a', l2, by simp [heq], ?_, hpa'⟩
          intro b hb
          rcases List.mem_cons.mp hb with rfl | hb'
          · exact hx'
          · exact hl1 b hb'

/-- `findIdx?` on a first-match decomposition finds the pivot's index. -/
theorem findIdx?_first_split {α : Type} (p : α → Bool) (l1 : List α) (a : α)
    (l2 : List α) (h1 : ∀ b ∈ l1, p b = false) (ha : p a = true) :
    (l1 ++ a :: l2).findIdx? p = some l1.length := by
  induction l1 with
  | nil => simp [ha]
  | cons x xs ih =>
      have hx : p x = false := h1 x (List.mem_cons_self x xs)
      have ih' := ih (fun b hb => h1 b (List.mem_cons_of_mem x hb))
      simp [hx, List.findIdx?_succ, ih']

/-- Indexing a first-match decomposition at the pivot's index gives the
pivot. -/
theorem getElem?_first_split {α : Type} (l1 : List α) (a : α) (l2 : List α) :
    (l1 ++ a :: l2)[l1.length]? = some a := by
  induction l1 with
  | nil => simp
  | cons x xs ih => simpa using ih

/-- Erasing the pivot's index from a first-match decomposition removes
exactly the pivot. -/
theorem eraseIdx_first_split {α : Type} (l1 : List α) (a : α) (l2 : List α) :
    (l1 ++ a :: l2).eraseIdx l1.length = l1 ++ l2 := by
  induction l1 with
  | nil => rfl
  | cons x xs ih => simpa using ih

/-- `find?` on a first-match decomposition returns the pivot. -/
theorem find?_first_split {α : Type} (p : α → Bool) (l1 : List α) (a : α)
    (l2 : List α) (h1 : ∀ b ∈ l1, p b = false) (ha : p a = true) :
    (l1 ++ a :: l2).find? p = some a := by
  induction l1 with
  | nil => simp [ha]
  | cons x xs ih =>
      have hx : p x = false := h1 x (List.mem_cons_self x xs)
      have ih' := ih (fun b hb => h1 b (List.mem_cons_of_mem x hb))
      simpa [hx] using ih'

/-! ### Characterizations of the store operations -/

/-- When the store holds a first-match decomposition for `id`, `deleteNote`
removes exactly the pivot and returns it. -/
theorem deleteNote_found (id : String) (s : StoreState) (l1 : List Note)
    (a : Note) (l2 : List Note) (hs : s.notesStore = l1 ++ a :: l2)
    (h1 : ∀ b ∈ l1, (b.id == id) = false) (ha : (a.id == id) = true) :
    deleteNote id s = (some a, saveNotes { s with notesStore := l1 ++ l2 }) := by
  unfold deleteNote
  rw [hs, findIdx?_first_split _ _ _ _ h1 ha]
  simp only [getElem?_first_split, eraseIdx_first_split]

/-- When no note in the store matches `id`, `deleteNote` returns `none` and
leaves the whole state (collection and file) unchanged. -/
theorem deleteNote_not_found (id : String) (s : StoreState)
    (h : ∀ n ∈ s.notesStore, (n.id == id) = false) :
    deleteNote id s = (none, s) := by
  unfold deleteNote
  rw [List.findIdx?_eq_none_iff.mpr h]

/-- The collection held by `saveNotes` is never changed: only the file is
(and only when the write succeeds). -/
theorem saveNotes_notesStore (s : StoreState) :
    (saveNotes s).notesStore = s.notesStore := by
  unfold saveNotes
  split <;> rfl

/-- The comparator of `getNotes` is transitive. -/
theorem byCreatedAtDesc_trans (a b c : Note) :
    byCreatedAtDesc a b → byCreatedAtDesc b c → byCreatedAtDesc a c := by
  simp only [byCreatedAtDesc, decide_eq_true_eq]
  omega

/-- The comparator of `getNotes` is total. -/
theorem byCreatedAtDesc_total (a b : Note) :
    byCreatedAtDesc a b || byCreatedAtDesc b a := by
  simp only [byCreatedAtDesc, Bool.or_eq_true, decide_eq_true_eq]
  omega

/-- The list returned by `getNotes` is pairwise descending in `createdAt`. -/
theorem getNotes_pairwise (s : StoreState) :
    ((getNotes s).1).Pairwise (fun a b => b.createdAt ≤ a.createdAt) := by
  have h := List.sorted_mergeSort byCreatedAtDesc_trans byCreatedAtDesc_total
    s.notesStore
  exact h.imp (fun hb => by simpa [byCreatedAtDesc] using hb)

/-- The list returned by `getNotes` is a permutation of the collection. -/
theorem getNotes_perm (s : StoreState) :
    ((getNotes s).1).Perm s.notesStore :=
  List.mergeSort_perm s.notesStore byCreatedAtDesc

/-! ### Concrete sample data for witnesses and counterexamples -/

/-- A concrete note with the given identifier, title and timestamp. -/
def mkSampleNote (id title : String) (createdAt : Nat) : Note :=
  { id := id, title := title, subject := "s", desc := "d", type := "note",
    fileName := "f.txt", fileUrl := "http://u", publicId := "p",
    fileType := "text/plain", fileSize := 3, createdAt := createdAt }

/-- Sample note with identifier "1" and the earlier timestamp. -/
def oldNote : Note := mkSampleNote "1" "a" 1

/-- Sample note with identifier "2" and the later timestamp. -/
def newNote : Note := mkSampleNote "2" "b" 2

/-- A store holding one note, with a working file system. -/
def sampleStore1 : StoreState :=
  { notesStore := [oldNote], file := FileContent.json [oldNote],
    writeOk := true }

/-- A store whose backing-file writes fail. -/
def badWriteStore : StoreState :=
  { notesStore := [], file := FileContent.json [], writeOk := false }

/-- A store holding an older note before a newer one. -/
def twoNoteStore : StoreState :=
  { notesStore := [oldNote, newNote],
    file := FileContent.json [oldNote, newNote], writeOk := true }

/-- A store holding two notes that share the identifier "1". -/
def dupStore : StoreState :=
  { notesStore := [mkSampleNote "1" "a" 1, mkSampleNote "1" "b" 2],
    file := FileContent.json [mkSampleNote "1" "a" 1, mkSampleNote "1" "b" 2],
    writeOk := true }

/-! ### The claims -/

/-- Claim C3: for every store state, `getNotes` returns the sequence of all
records (a permutation of the collection) sorted descending by creation
timestamp, most recent first. -/
theorem c3_list_sorted_desc (s : StoreState) :
    ((getNotes s).1).Pairwise (fun a b => b.createdAt ≤ a.createdAt) ∧
    ((getNotes s).1).Perm s.notesStore :=
  ⟨getNotes_pairwise s, getNotes_perm s⟩

/-- Claim C6: removing an identifier not present in the collection reports
not-found (`none`) and leaves the whole store state — collection, order and
backing file — unchanged. -/
theorem c6_remove_absent (id : String) (s : StoreState)
    (h : ∀ n ∈ s.notesStore, n.id ≠ id) :
    deleteNote id s = (none, s) :=
  deleteNote_not_found id s (fun n hn => by simpa using h n hn)

/-- Witness for claim C6 at a concrete store and absent identifier. -/
theorem c6_remove_absent_witness :
    (∀ n ∈ sampleStore1.notesStore, n.id ≠ "2") ∧
    deleteNote "2" sampleStore1 = (none, sampleStore1) :=
  ⟨by decide, c6_remove_absent "2" sampleStore1 (by decide)⟩

/-- Claim C7 (counterexample): `getNotes` is destructive: on a store holding
an older note before a newer one, it reorders the in-memory collection. -/
theorem c7_counterexample :
    (getNotes twoNoteStore).2.notesStore ≠ [oldNote, newNote] := by
  intro h
  have hp := getNotes_pairwise twoNoteStore
  have h1 : (getNotes twoNoteStore).1 = [oldNote, newNote] := h
  rw [h1] at hp
  have hle := (List.pairwise_cons.mp hp).1 newNote (by simp)
  exact (by decide : ¬ newNote.createdAt ≤ oldNote.createdAt) hle

/-- Claim C7 (amended): `getNotes` sorts the in-memory collection in place:
afterwards the collection equals the returned (sorted) list — the same
records as before, as a permutation, but possibly in a different order —
and the backing file is untouched. -/
theorem c7_list_effect (s : StoreState) :
    (getNotes s).2.notesStore = (getNotes s).1 ∧
    ((getNotes s).2.notesStore).Perm s.notesStore ∧
    (getNotes s).2.file = s.file ∧
    (getNotes s).2.writeOk = s.writeOk :=
  ⟨rfl, List.mergeSort_perm s.notesStore byCreatedAtDesc, rfl, rfl⟩

/-- Claim C8: initializing from an existing but malformed backing file
treats the parse failure as no data: the collection resets to empty and the
corrupt file contents are left untouched. -/
theorem c8_load_malformed (w : Bool) :
    loadNotes FileContent.malformed w =
      { notesStore := [], file := FileContent.malformed, writeOk := w } :=
  rfl

/-- Claim C1 (counterexample): when the backing-file write fails, `addNote`
still reports success — it returns the stored record, the only success
signal the store exposes — yet reading and parsing the backing file does
not yield the in-memory collection: the error was swallowed by `saveNotes`
and the file is stale. -/
theorem c1_counterexample :
    (addNote oldNote badWriteStore).1 = some oldNote ∧
    parseFile (addNote oldNote badWriteStore).2.file ≠
      some (addNote oldNote badWriteStore).2.notesStore := by
  decide

/-- Claim C1 (amended): after any `addNote`, and after any `deleteNote` that
returns a removed record, in which the underlying file write succeeds,
reading and parsing the backing file yields exactly the in-memory
collection. -/
theorem c1_file_mirrors_store (s : StoreState) (h : s.writeOk = true) :
    (∀ n : Note,
      parseFile (addNote n s).2.file = some (addNote n s).2.notesStore) ∧
    (∀ id : String, (deleteNote id s).1.isSome = true →
      parseFile (deleteNote id s).2.file =
        some (deleteNote id s).2.notesStore) := by
  constructor
  · intro n
    simp [addNote, saveNotes, h, parseFile]
  · intro id hdel
    unfold deleteNote at hdel ⊢
    cases hidx : s.notesStore.findIdx? (fun note => note.id == id) with
    | none => rw [hidx] at hdel; simp at hdel
    | some i => simp [saveNotes, h, parseFile]

/-- Witness for claim C1 at a concrete store with a working file write. -/
theorem c1_file_mirrors_store_witness :
    sampleStore1.writeOk = true ∧
    parseFile (addNote newNote sampleStore1).2.file =
      some (addNote newNote sampleStore1).2.notesStore :=
  ⟨rfl, (c1_file_mirrors_store sampleStore1 rfl).1 newNote⟩

/-- Claim C2 (counterexample): when persisting raises an error (failing
write), the error is caught and logged inside `saveNotes`, so `addNote`
returns the stored record — not a null result — while the backing file is
left stale. -/
theorem c2_counterexample :
    (addNote oldNote badWriteStore).1 ≠ none ∧
    (addNote oldNote badWriteStore).2.file ≠
      FileContent.json (addNote oldNote badWriteStore).2.notesStore := by
  decide

/-- Claim C2 (amended): `addNote` appends the record to the end of the
collection and returns the stored record unconditionally; the collection is
persisted exactly when the file write succeeds, and on a failing write the
error is swallowed and only the file is left unchanged. -/
theorem c2_add_behavior (n : Note) (s : StoreState) :
    (addNote n s).1 = some n ∧
    (addNote n s).2.notesStore = s.notesStore ++ [n] ∧
    (s.writeOk = true →
      (addNote n s).2.file = FileContent.json (s.notesStore ++ [n])) ∧
    (s.writeOk = false → (addNote n s).2.file = s.file) := by
  refine ⟨rfl, saveNotes_notesStore _, ?_, ?_⟩ <;>
    intro h <;> simp [addNote, saveNotes, h]

/-- Witness for claim C2 at a concrete record and store. -/
theorem c2_add_behavior_witness :
    sampleStore1.writeOk = true ∧
    (addNote newNote sampleStore1).2.file =
      FileContent.json (sampleStore1.notesStore ++ [newNote]) :=
  ⟨rfl, (c2_add_behavior newNote sampleStore1).2.2.1 rfl⟩

/-- Claim C4 (counterexample): with a record of identifier "1" already in
the store, adding a second record with the same identifier and then looking
it up returns the earlier record, which differs from the added one. -/
theorem c4_counterexample :
    findNote "1" (addNote (mkSampleNote "1" "b" 2) sampleStore1).2 =
      some oldNote ∧
    oldNote ≠ mkSampleNote "1" "b" 2 := by
  decide

/-- Claim C4 (amended): if no record already in the store carries the
identifier of `r`, then `addNote r` followed by `findNote r.id` returns a
record equal to `r`. -/
theorem c4_add_then_find (r : Note) (s : StoreState)
    (h : ∀ n ∈ s.notesStore, n.id ≠ r.id) :
    findNote r.id (addNote r s).2 = some r := by
  have hstore : (addNote r s).2.notesStore = s.notesStore ++ [r] :=
    saveNotes_notesStore _
  unfold findNote
  rw [hstore]
  exact find?_first_split _ s.notesStore r []
    (fun b hb => by simpa using h b hb) (by simp)

/-- Witness for claim C4 at a concrete fresh record and store. -/
theorem c4_add_then_find_witness :
    (∀ n ∈ sampleStore1.notesStore, n.id ≠ newNote.id) ∧
    findNote newNote.id (addNote newNote sampleStore1).2 = some newNote :=
  ⟨by decide, c4_add_then_find newNote sampleStore1 (by decide)⟩

/-- Claim C5: under the data-model invariant that identifiers are unique
(exactly one record carries `id`), and with a working file write,
`deleteNote id` locates the first record with that identifier, removes it,
persists the shrunk collection to the file, returns the removed record, and
a subsequent `findNote id` reports not-found. -/
theorem c5_remove_existing (id : String) (s : StoreState)
    (huniq : s.notesStore.countP (fun n => n.id == id) = 1)
    (hw : s.writeOk = true) :
    ∃ l1 a l2,
      s.notesStore = l1 ++ a :: l2 ∧ (∀ b ∈ l1, b.id ≠ id) ∧ a.id = id ∧
      deleteNote id s =
        (some a,
         { notesStore := l1 ++ l2, file := FileContent.json (l1 ++ l2),
           writeOk := true }) ∧
      findNote id (deleteNote id s).2 = none := by
  have hpos : 0 < s.notesStore.countP (fun n => n.id == id) := by omega
  obtain ⟨a0, ha0, hpa0⟩ := List.countP_pos_iff.mp hpos
  obtain ⟨l1, a, l2, hs, hl1, hpa⟩ :=
    exists_first_split (fun n => n.id == id) s.notesStore ⟨a0, ha0, hpa0⟩
  have hdel := deleteNote_found id s l1 a l2 hs hl1 hpa
  have hc : (l1 ++ a :: l2).countP (fun n => n.id == id) = 1 := by
    rw [← hs]; exact huniq
  have hl1z : l1.countP (fun n => n.id == id) = 0 :=
    List.countP_eq_zero.mpr (fun b hb => by simp [hl1 b hb])
  have hl2z : l2.countP (fun n => n.id == id) = 0 := by
    rw [List.countP_append, List.countP_cons_of_pos _ l2 hpa] at hc
    omega
  have hsave : saveNotes { s with notesStore := l1 ++ l2 } =
      { notesStore := l1 ++ l2, file := FileContent.json (l1 ++ l2),
        writeOk := true } := by
    simp [saveNotes, hw]
  have hfind : findNote id (deleteNote id s).2 = none := by
    rw [hdel, hsave]
    unfold findNote
    refine List.find?_eq_none.mpr ?_
    intro x hx
    rcases List.mem_append.mp hx with h1 | h2
    · simp [hl1 x h1]
    · exact List.countP_eq_zero.mp hl2z x h2
  refine ⟨l1, a, l2, hs, ?_, ?_, ?_, hfind⟩
  · intro b hb; simpa using hl1 b hb
  · simpa using hpa
  · rw [hdel, hsave]

/-- Witness for claim C5 at a concrete store holding exactly one record
with the identifier "1". -/
theorem c5_remove_existing_witness :
    sampleStore1.notesStore.countP (fun n => n.id == "1") = 1 ∧
    ∃ l1 a l2,
      sampleStore1.notesStore = l1 ++ a :: l2 ∧ (∀ b ∈ l1, b.id ≠ "1") ∧
      a.id = "1" ∧
      deleteNote "1" sampleStore1 =
        (some a,
         { notesStore := l1 ++ l2, file := FileContent.json (l1 ++ l2),
           writeOk := true }) ∧
      findNote "1" (deleteNote "1" sampleStore1).2 = none :=
  ⟨by decide, c5_remove_existing "1" sampleStore1 (by decide) rfl⟩

/-- Claim C9: when more than one record carries `id`, `deleteNote id`
removes exactly one record — the first match — and the rest of the
collection, later duplicates included, keeps its original relative order:
the new collection is the old one with only its first match cut out, it is
one element shorter, and still holds a record with that identifier. -/
theorem c9_remove_first_of_duplicates (id : String) (s : StoreState)
    (hdup : 2 ≤ s.notesStore.countP (fun n => n.id == id)) :
    ∃ l1 a l2,
      s.notesStore = l1 ++ a :: l2 ∧ (∀ b ∈ l1, b.id ≠ id) ∧ a.id = id ∧
      (deleteNote id s).1 = some a ∧
      (deleteNote id s).2.notesStore = l1 ++ l2 ∧
      (deleteNote id s).2.notesStore.length + 1 = s.notesStore.length ∧
      ∃ b ∈ (deleteNote id s).2.notesStore, b.id = id := by
  have hpos : 0 < s.notesStore.countP (fun n => n.id == id) := by omega
  obtain ⟨a0, ha0, hpa0⟩ := List.countP_pos_iff.mp hpos
  obtain ⟨l1, a, l2, hs, hl1, hpa⟩ :=
    exists_first_split (fun n => n.id == id) s.notesStore ⟨a0, ha0, hpa0⟩
  have hdel := deleteNote_found id s l1 a l2 hs hl1 hpa
  have hstore2 : (deleteNote id s).2.notesStore = l1 ++ l2 := by
    rw [hdel]; exact saveNotes_notesStore _
  have hc : 2 ≤ (l1 ++ a :: l2).countP (fun n => n.id == id) := by
    rw [← hs]; exact hdup
  have hl1z : l1.countP (fun n => n.id == id) = 0 :=
    List.countP_eq_zero.mpr (fun b hb => by simp [hl1 b hb])
  have hl2pos : 0 < l2.countP (fun n => n.id == id) := by
    rw [List.countP_append, List.countP_cons_of_pos _ l2 hpa] at hc
    omega
  obtain ⟨b, hb, hpb⟩ := List.countP_pos_iff.mp hl2pos
  refine ⟨l1, a, l2, hs, ?_, ?_, ?_, hstore2, ?_, ?_⟩
  · intro x hx; simpa using hl1 x hx
  · simpa using hpa
  · rw [hdel]
  · rw [hstore2, hs]; simp; omega
  · refine ⟨b, ?_, by simpa using hpb⟩
    rw [hstore2]
    exact List.mem_append_right _ hb

/-- Witness for claim C9 at a concrete store holding two records that both
carry the identifier "1". -/
theorem c9_remove_first_of_duplicates_witness :
    2 ≤ dupStore.notesStore.countP (fun n => n.id == "1") ∧
    ∃ l1 a l2,
      dupStore.notesStore = l1 ++ a :: l2 ∧ (∀ b ∈ l1, b.id ≠ "1") ∧
      a.id = "1" ∧
      (deleteNote "1" dupStore).1 = some a ∧
      (deleteNote "1" dupStore).2.notesStore = l1 ++ l2 ∧
      (deleteNote "1" dupStore).2.notesStore.length + 1 =
        dupStore.notesStore.length ∧
      ∃ b ∈ (deleteNote "1" dupStore).2.notesStore, b.id = "1" :=
  ⟨by decide, c9_remove_first_of_duplicates "1" dupStore (by decide)⟩

/-- Claim C10: the record the upload handler builds and stores has type
`"note"` whenever the `type` field is absent or the empty string, and an
absent `subject` or `desc` is stored as the empty string; in the embedding
these fields are total strings, so every stored record has them defined,
and `addNote` appends exactly that record as the last element. -/
theorem c10_upload_defaults (id title : String) (type_ : Option String)
    (fn fu pid ftype : String) (fsize ctime : Nat) (s : StoreState)
    (ht : type_ = none ∨ type_ = some "") :
    (buildNote id title none none type_ fn fu pid ftype fsize ctime).type =
      "note" ∧
    (buildNote id title none none type_ fn fu pid ftype fsize ctime).subject =
      "" ∧
    (buildNote id title none none type_ fn fu pid ftype fsize ctime).desc =
      "" ∧
    (addNote (buildNote id title none none type_ fn fu pid ftype fsize ctime)
        s).2.notesStore.getLast? =
      some (buildNote id title none none type_ fn fu pid ftype fsize ctime) := by
  refine ⟨?_, rfl, rfl, ?_⟩
  · rcases ht with rfl | rfl <;> simp [buildNote, jsOr]
  · have h2 :
        (addNote (buildNote id title none none type_ fn fu pid ftype fsize
          ctime) s).2.notesStore =
        s.notesStore ++
          [buildNote id title none none type_ fn fu pid ftype fsize ctime] :=
      saveNotes_notesStore _
    rw [h2]
    exact List.getLast?_concat _

/-- Witness for claim C10 at concrete upload-handler inputs with the
`type`, `subject` and `desc` fields all absent. -/
theorem c10_upload_defaults_witness :
    ((none : Option String) = none ∨ (none : Option String) = some "") ∧
    (buildNote "9" "t" none none none "f" "u" "p" "m" 1 7).type = "note" ∧
    (buildNote "9" "t" none none none "f" "u" "p" "m" 1 7).subject = "" ∧
    (buildNote "9" "t" none none none "f" "u" "p" "m" 1 7).desc = "" ∧
    (addNote (buildNote "9" "t" none none none "f" "u" "p" "m" 1 7)
        sampleStore1).2.notesStore.getLast? =
      some (buildNote "9" "t" none none none "f" "u" "p" "m" 1 7) :=
  ⟨Or.inl rfl,
   c10_upload_defaults "9" "t" none "f" "u" "p" "m" 1 7 sampleStore1
     (Or.inl rfl)⟩

end CampusNotes
